import Mathlib

/-!
Shallow embedding of the `imagelz` repository (thind9xdev/imagelz).

Source layout:
  - `src/hooks/useImageBroken.tsx`   — out-of-band URL load-validator with
    timeout and bounded retry (state: `isHaveImg : boolean | null`,
    `retries : number`, refs `imgRef`, `timeoutRef`).
  - `src/hooks/useProgressiveImage.tsx` — low-quality-first progressive
    load sequencer.
  - `src/ImageLazy.tsx`              — composition: IntersectionObserver
    visibility latch, URL selection, skeleton/error/image render choice.

The embedding is an event-driven small-step semantics: every piece of
mutable hook state becomes a field of an explicit state record, and every
callback the browser can run (image onload / onerror, the timeout timer,
the anonymous retry timer, a React effect re-run on a `url` prop change)
becomes an event processed by a step function.  The single-threaded
event-loop model of the source (spec section 5) makes this faithful:
callbacks run one at a time, in some order; a trace is a list of events.
-/

namespace ImageLz

/-! ## Load-validator model (`src/hooks/useImageBroken.tsx`) -/

/-- Retry/timeout configuration of `useImageBroken`
(`{ timeout = 10000, retryCount = 2, retryDelay = 1000 } = options`). -/
structure BrokenCfg where
  timeoutMs : Nat := 10000
  retryCount : Nat := 2
  retryDelay : Nat := 1000
deriving DecidableEq

/-- The data captured by a probe's closures: the `new Image()` created in
`attemptLoad(imageUrl, attempt)` has `onload`/`onerror` handlers closing
over `imageUrl` and `attempt`; the timeout-timer callback closes over the
same pair. -/
structure Probe where
  url : String
  attempt : Nat
deriving DecidableEq

/-- State of one `useImageBroken` hook instance.

  - `isHaveImg` — the `useState<boolean | null>` cell
    (`none` = loading, `some true` = success, `some false` = error);
  - `retries` — the `useState(0)` retry counter;
  - `current` — `imgRef.current` together with whether its callbacks are
    attached: `some p` means an `Image` probe with handlers attached and
    closure data `p`; `cleanup()` nulls the handlers, giving `none`
    (in the source the only probe with attached handlers is the one held
    in `imgRef.current`, so one optional field suffices);
  - `timeoutT` — the pending timeout timer held in `timeoutRef.current`,
    as `(durationMs, closure data)` (`none` when cleared or already
    fired);
  - `retryTs` — the pending retry timers created by
    `setTimeout(() => attemptLoad(imageUrl, attempt + 1), retryDelay)`.
    The source stores NO handle for these, so `cleanup()` cannot clear
    them; each entry is `(delayMs, closure data)`;
  - `retryLog` — audit log: every retry timer ever created, in creation
    order (the `setRetries(attempt + 1)` emission accompanies each entry);
  - `probesStarted` — audit log: every URL assigned to `img.src`
    (each assignment starts a network fetch of that URL);
  - `urlProp` — the current `url` prop of the hook. -/
structure HookState where
  isHaveImg : Option Bool
  retries : Nat
  current : Option Probe
  timeoutT : Option (Nat × Probe)
  retryTs : List (Nat × Probe)
  retryLog : List (Nat × Probe)
  probesStarted : List String
  urlProp : String
deriving DecidableEq

/-- `cleanup()` (useImageBroken.tsx:38-48): null the current probe's
`onload`/`onerror` and drop `imgRef.current`; `clearTimeout` the pending
timeout timer and drop `timeoutRef.current`.  The anonymous retry timers
are untouched (no handle is stored for them). -/
def cleanup (s : HookState) : HookState :=
  { s with current := none, timeoutT := none }

/-- Shared body of the two retry branches
(`setTimeout(() => attemptLoad(imageUrl, attempt + 1), retryDelay);
setRetries(attempt + 1);`). -/
def scheduleRetry (cfg : BrokenCfg) (s : HookState) (u : String) (a : Nat) :
    HookState :=
  { s with retryTs := s.retryTs ++ [(cfg.retryDelay, ⟨u, a + 1⟩)],
           retryLog := s.retryLog ++ [(cfg.retryDelay, ⟨u, a + 1⟩)],
           retries := a + 1 }

/-- `attemptLoad(imageUrl, attempt)` (useImageBroken.tsx:50-98):
empty URL is an immediate `setImg(false)` with no probe; otherwise
`setImg(null)`, `cleanup()`, create a probe with attached handlers, start
the timeout timer, and assign `img.src = imageUrl` (starting the fetch). -/
def attemptLoad (cfg : BrokenCfg) (s : HookState) (imageUrl : String)
    (attempt : Nat) : HookState :=
  if imageUrl = "" then { s with isHaveImg := some false }
  else
    let s1 := cleanup { s with isHaveImg := none }
    { s1 with current := some ⟨imageUrl, attempt⟩,
              timeoutT := some (cfg.timeoutMs, ⟨imageUrl, attempt⟩),
              probesStarted := s1.probesStarted ++ [imageUrl] }

/-- Events the environment can deliver to one hook instance:

  - `load` / `err` — the attached probe's `onload` / `onerror` fires
    (a probe whose handlers were nulled by `cleanup` runs no code, so
    only the attached probe generates events);
  - `tmo` — the pending timeout timer fires;
  - `retryFire k` — the `k`-th pending retry timer fires;
  - `setUrl u` — the `url` prop changes: React runs the effect cleanup
    (`return cleanup` in useImageBroken.tsx:107) and then the effect body
    (`if (url) attemptLoad(url) else setImg(false)`). -/
inductive HkEv where
  | load
  | err
  | tmo
  | retryFire (k : Nat)
  | setUrl (u : String)
deriving DecidableEq

/-- One event step of the hook (the handlers of useImageBroken.tsx:63-95
and the effect of lines 100-108). -/
def hkStep (cfg : BrokenCfg) (s : HookState) : HkEv → HookState
  | .load =>
    match s.current with
    | some _ => { s with timeoutT := none, isHaveImg := some true, retries := 0 }
    | none => s
  | .err =>
    match s.current with
    | some p =>
      let s1 := { s with timeoutT := none }
      if p.attempt < cfg.retryCount then scheduleRetry cfg s1 p.url p.attempt
      else { s1 with isHaveImg := some false, retries := 0 }
    | none => s
  | .tmo =>
    match s.timeoutT with
    | some (_, p) =>
      let s1 := { s with timeoutT := none }
      if p.attempt < cfg.retryCount then scheduleRetry cfg s1 p.url p.attempt
      else cleanup { s1 with isHaveImg := some false }
    | none => s
  | .retryFire k =>
    match s.retryTs[k]? with
    | some (_, p) =>
      attemptLoad cfg { s with retryTs := s.retryTs.eraseIdx k } p.url p.attempt
    | none => s
  | .setUrl u =>
    let s1 := { cleanup s with urlProp := u }
    if u = "" then { s1 with isHaveImg := some false }
    else attemptLoad cfg s1 u 0

/-- Initial hook state: `useState<boolean | null>(null)` and `useState(0)`,
empty refs, before the mount effect runs. -/
def hookInit (u : String) : HookState :=
  { isHaveImg := none, retries := 0, current := none, timeoutT := none,
    retryTs := [], retryLog := [], probesStarted := [], urlProp := u }

/-- Hook state after mount: the effect body (useImageBroken.tsx:100-108)
runs `attemptLoad(url)` when `url` is truthy, else `setImg(false)`. -/
def hkMount (cfg : BrokenCfg) (u : String) : HookState :=
  if u = "" then { hookInit u with isHaveImg := some false }
  else attemptLoad cfg (hookInit u) u 0

/-- Run a hook instance from mount through a trace of events. -/
def hkRun (cfg : BrokenCfg) (u : String) (evs : List HkEv) : HookState :=
  evs.foldl (hkStep cfg) (hkMount cfg u)

/-! ### Canonical failing traces of the validator -/

/-- State of a hook that is currently probing `u` at attempt number `a`
(probe attached, timeout timer pending, result still loading). -/
def probingAt (cfg : BrokenCfg) (u : String) (a r : Nat)
    (lg : List (Nat × Probe)) (ps : List String) : HookState :=
  { isHaveImg := none, retries := r, current := some ⟨u, a⟩,
    timeoutT := some (cfg.timeoutMs, ⟨u, a⟩), retryTs := [],
    retryLog := lg, probesStarted := ps, urlProp := u }

/-- Event trace in which every attempt ends in `onerror` (a decode or
network failure): `n` failures each followed by the scheduled retry
firing, then one final failure. -/
def errTrace : Nat → List HkEv
  | 0 => [.err]
  | n + 1 => .err :: .retryFire 0 :: errTrace n

/-- Event trace in which every attempt ends in the timeout timer firing:
`n` timeouts each followed by the scheduled retry firing, then one final
timeout. -/
def tmoTrace : Nat → List HkEv
  | 0 => [.tmo]
  | n + 1 => .tmo :: .retryFire 0 :: tmoTrace n

/-- The sequence of retry-timer records created by `n` consecutive
failures starting from attempt number `a`: delays are all `d`, attempt
numbers count up from `a + 1`. -/
def retrySeq (d : Nat) (u : String) (a : Nat) : Nat → List (Nat × Probe)
  | 0 => []
  | n + 1 => (d, ⟨u, a + 1⟩) :: retrySeq d u (a + 1) n

/-! ## Render selection (`src/ImageLazy.tsx`, lines 207-210 and 325-338) -/

/-- What the component returns from a render. -/
inductive Display where
  | skeleton
  | error
  | image
deriving DecidableEq

/-- JavaScript `x || 2` for an optional number: `undefined` and `0` are
falsy, so both yield the default `2` (`retryOptions.retryCount || 2`,
ImageLazy.tsx:209). -/
def jsOrTwo : Option Nat → Nat
  | none => 2
  | some n => if n = 0 then 2 else n

/-- `shouldShowSkeleton = showSkeleton && (isLoading || urlIsLoading ||
!shouldLoad)` (ImageLazy.tsx:208). -/
def shouldShowSkeleton (showSk isLoadingProp urlIsLoading shouldLoad : Bool) :
    Bool :=
  showSk && (isLoadingProp || urlIsLoading || !shouldLoad)

/-- `shouldShowError = shouldLoad && isUrlValid === false && retries >=
(retryOptions.retryCount || 2)` (ImageLazy.tsx:209). -/
def shouldShowError (shouldLoad : Bool) (isUrlValid : Option Bool)
    (retries : Nat) (rcOpt : Option Nat) : Bool :=
  shouldLoad && (isUrlValid == some false) && decide (jsOrTwo rcOpt ≤ retries)

/-- `shouldShowImage = shouldLoad && !shouldShowError` (ImageLazy.tsx:210). -/
def shouldShowImage (shouldLoad : Bool) (isUrlValid : Option Bool)
    (retries : Nat) (rcOpt : Option Nat) : Bool :=
  shouldLoad && !(shouldShowError shouldLoad isUrlValid retries rcOpt)

/-- The render chain of ImageLazy.tsx:325-338: skeleton if
`shouldShowSkeleton`, else error if `shouldShowError`, else image if
`shouldShowImage`, else the trailing fallback `return skeleton`.
`isUrlValid` is the hook's `isValid` (`isHaveImg`); `urlIsLoading` is
the hook's `isLoading`, i.e. `isHaveImg === null`. -/
def render (showSk isLoadingProp shouldLoad : Bool) (isUrlValid : Option Bool)
    (retries : Nat) (rcOpt : Option Nat) : Display :=
  if shouldShowSkeleton showSk isLoadingProp isUrlValid.isNone shouldLoad
  then .skeleton
  else if shouldShowError shouldLoad isUrlValid retries rcOpt then .error
  else if shouldShowImage shouldLoad isUrlValid retries rcOpt then .image
  else .skeleton

/-! ## Visibility latch (`src/ImageLazy.tsx`, lines 128-205) -/

/-- Visibility-detection state of one `ImageLazy` instance:

  - `shouldLoad`, `hasIntersected` — the two `useState(false)` cells;
  - `observerActive` — whether an `IntersectionObserver` currently
    observes the element;
  - `observerGen` — how many observers have been constructed so far
    (`new IntersectionObserver(...)` calls), minus one. -/
structure VisState where
  shouldLoad : Bool
  hasIntersected : Bool
  observerActive : Bool
  observerGen : Nat
deriving DecidableEq

/-- State after mount and the first effect run (ImageLazy.tsx:183-205):
`eager` bypasses the observer and latches both flags; `lazy` constructs
observer generation `0` and observes the rendered element. -/
def mountVis (eager : Bool) : VisState :=
  if eager then
    { shouldLoad := true, hasIntersected := true,
      observerActive := false, observerGen := 0 }
  else
    { shouldLoad := false, hasIntersected := false,
      observerActive := true, observerGen := 0 }

/-- One intersection event with `entry.isIntersecting = b`, delivered by
the active observer to `handleIntersection` (ImageLazy.tsx:171-181),
including the React consequence of the state change: `handleIntersection`
is a `useCallback` with dependency `[hasIntersected]`, so flipping the
latch changes its identity, which re-runs the effect
(deps `[loading, handleIntersection]`, ImageLazy.tsx:205) — the cleanup
disconnects the old observer and the body constructs a new observer and
observes the element again. -/
def visStep (s : VisState) (b : Bool) : VisState :=
  if s.observerActive then
    if b && !s.hasIntersected then
      { shouldLoad := true, hasIntersected := true,
        observerActive := true, observerGen := s.observerGen + 1 }
    else s
  else s

/-- Run the visibility latch through a list of intersection events. -/
def visRun (s : VisState) (evs : List Bool) : VisState :=
  evs.foldl visStep s

/-! ## Composition: one `ImageLazy` instance (`src/ImageLazy.tsx`) -/

/-- Events of a whole component instance: an intersection event for the
observer, or a validator event.  The validator hook is keyed only on its
`url` argument and retry options (ImageLazy.tsx:144-147), so visibility
events do not touch it, and vice versa. -/
inductive CEv where
  | vis (b : Bool)
  | hk (e : HkEv)
deriving DecidableEq

/-- Whether a component event is an intersection event. -/
def CEv.isVis : CEv → Bool
  | .vis _ => true
  | .hk _ => false

/-- Joint state of one component instance. -/
structure CompState where
  vis : VisState
  hook : HookState
deriving DecidableEq

/-- Component state after mount: the visibility effect runs, and the
`useImageBroken(optimizedUrl, retryOptions)` effect runs — note the hook
call at ImageLazy.tsx:144 is unconditional, not gated on `shouldLoad`. -/
def compMount (cfg : BrokenCfg) (eager : Bool) (target : String) : CompState :=
  { vis := mountVis eager, hook := hkMount cfg target }

/-- One component event step. -/
def compStep (cfg : BrokenCfg) (s : CompState) : CEv → CompState
  | .vis b => { s with vis := visStep s.vis b }
  | .hk e => { s with hook := hkStep cfg s.hook e }

/-- Run a component instance from mount through a trace of events. -/
def compRun (cfg : BrokenCfg) (eager : Bool) (target : String)
    (evs : List CEv) : CompState :=
  evs.foldl (compStep cfg) (compMount cfg eager target)

/-- What the component renders in a given state
(`render` applied to the wired-up values of ImageLazy.tsx:208-210). -/
def compRender (showSk isLoadingProp : Bool) (rcOpt : Option Nat)
    (s : CompState) : Display :=
  render showSk isLoadingProp s.vis.shouldLoad s.hook.isHaveImg
    s.hook.retries rcOpt

/-! ## Progressive sequencer (`src/hooks/useProgressiveImage.tsx`) -/

/-- JavaScript truthiness of an optional string (`!!lowQualityUrl`,
`if (lowQualityUrl)`): `undefined` and the empty string are falsy. -/
def jsTruthy : Option String → Bool
  | none => false
  | some s => decide (s ≠ "")

/-- Position of the `loadSequence` coroutine
(useProgressiveImage.tsx:56-75) between its `await` points:

  - `idle` — the effect returned early (`if (!highQualityUrl) return`);
  - `loadingLow` — awaiting `loadImage(lowQualityUrl)`;
  - `loadingHigh` — awaiting `loadImage(highQualityUrl)`;
  - `done` — the `finally` block has run; nothing further is pending. -/
inductive SeqPhase where
  | idle
  | loadingLow
  | loadingHigh
  | done
deriving DecidableEq

/-- State of one `useProgressiveImage` hook instance.  `loadsStarted`
logs every URL passed to `loadImage` (each call constructs an `Image`
and assigns `img.src = url`, starting a fetch). -/
structure ProgState where
  isLoaded : Bool
  isLoading : Bool
  shouldShowLowQuality : Bool
  phase : SeqPhase
  loadsStarted : List String
deriving DecidableEq

/-- State after mount: the `useState` initials
(`isLoaded = false`, `isLoading = false`,
`shouldShowLowQuality = !!lowQualityUrl`) followed by the effect
(useProgressiveImage.tsx:50-76): return early on a falsy
`highQualityUrl`, else `setIsLoading(true); setIsLoaded(false)` and start
`loadSequence`, whose first `loadImage` targets `lowQualityUrl` when that
is truthy and `highQualityUrl` otherwise. -/
def progMount (high : String) (low : Option String) : ProgState :=
  let init : ProgState :=
    { isLoaded := false, isLoading := false,
      shouldShowLowQuality := jsTruthy low, phase := .idle,
      loadsStarted := [] }
  if high = "" then init
  else if jsTruthy low then
    { init with isLoading := true, phase := .loadingLow,
                loadsStarted := [low.getD ""] }
  else
    { init with isLoading := true, phase := .loadingHigh,
                loadsStarted := [high] }

/-- Completion events for the two `loadImage` promises. -/
inductive PEv where
  | lowOk
  | lowFail
  | highOk
  | highFail
deriving DecidableEq

/-- One event step of `loadSequence`:

  - the low-quality promise resolves → the sequence moves on to
    `await loadImage(highQualityUrl)`;
  - the low-quality promise REJECTS → the exception propagates out of the
    single `try` that wraps BOTH awaits, so control jumps to `catch`
    (`console.warn`) and `finally` (`setIsLoading(false)`): the
    high-quality load is never started;
  - the high-quality promise resolves → `setIsLoaded(true);
    setShouldShowLowQuality(false)` then `finally`;
  - the high-quality promise rejects → `catch` and `finally` only.

Events that do not match the coroutine's position run no code. -/
def progStep (high : String) (s : ProgState) : PEv → ProgState
  | .lowOk =>
    match s.phase with
    | .loadingLow =>
      { s with phase := .loadingHigh, loadsStarted := s.loadsStarted ++ [high] }
    | _ => s
  | .lowFail =>
    match s.phase with
    | .loadingLow => { s with phase := .done, isLoading := false }
    | _ => s
  | .highOk =>
    match s.phase with
    | .loadingHigh =>
      { s with isLoaded := true, shouldShowLowQuality := false,
               isLoading := false, phase := .done }
    | _ => s
  | .highFail =>
    match s.phase with
    | .loadingHigh => { s with phase := .done, isLoading := false }
    | _ => s

/-- Run a progressive-hook instance from mount through a trace. -/
def progRun (high : String) (low : Option String) (evs : List PEv) :
    ProgState :=
  evs.foldl (progStep high) (progMount high low)

/-- The exposed `src` (useProgressiveImage.tsx:85):
`isLoaded ? highQualityUrl : (lowQualityUrl || highQualityUrl)`. -/
def progSrc (high : String) (low : Option String) (s : ProgState) : String :=
  if s.isLoaded then high
  else if jsTruthy low then low.getD "" else high

/-! ## URL optimization / selection (`src/ImageLazy.tsx`, lines 133-141
and 212-218)

The helpers `isValidImageUrl`, `ensureHttps` and `optimizeImageUrl` live
in `src/utils/imageUtils`, a file not present in the repository snapshot
(the spec places them out of scope: pure URL-string formatting).  They
enter the embedding as opaque function parameters; the definitions below
embed only the selection logic of `ImageLazy.tsx`, which is present. -/

/-- `optimizedUrl` (ImageLazy.tsx:134-137):
`if (!imgUrl || !isValidImageUrl(imgUrl)) return imgUrlDefault;
return optimizeImageUrl(ensureHttps(imgUrl), optimizationOptions);`
Note the early return hands back `imgUrlDefault` unchanged. -/
def optimizedUrl (isValidImageUrl : String → Bool)
    (optimizeImageUrl ensureHttps : String → String)
    (imgUrl imgUrlDefault : String) : String :=
  if imgUrl = "" ∨ isValidImageUrl imgUrl = false then imgUrlDefault
  else optimizeImageUrl (ensureHttps imgUrl)

/-- `optimizedFallbackUrl` (ImageLazy.tsx:139-141):
`optimizeImageUrl(ensureHttps(imgUrlDefault), optimizationOptions)`. -/
def optimizedFallbackUrl (optimizeImageUrl ensureHttps : String → String)
    (imgUrlDefault : String) : String :=
  optimizeImageUrl (ensureHttps imgUrlDefault)

/-- `finalImageSrc` (ImageLazy.tsx:213-218):
`if (progressive && progressiveImage.src) return progressiveImage.src;
return isUrlValid ? optimizedUrl : optimizedFallbackUrl;`
(`isUrlValid` is truthy only when `=== true`; `null` and `false` both
select the fallback). -/
def finalImageSrc (progressive : Bool) (progressiveSrc : String)
    (isUrlValid : Option Bool) (optUrl optFallback : String) : String :=
  if progressive ∧ progressiveSrc ≠ "" then progressiveSrc
  else if isUrlValid = some true then optUrl
  else optFallback

/-- The source's default retry options
(`timeout = 10000, retryCount = 2, retryDelay = 1000`). -/
def cfgDefault : BrokenCfg := {}

/-- Concrete stand-in for the absent `optimizeImageUrl` helper: a URL
rewriter that appends a width query parameter (the helper adds CDN query
parameters, per the spec's description of it as URL-string rewriting). -/
def optStub (s : String) : String := s ++ "?w=100"

/-- Concrete stand-in for the absent `isValidImageUrl` helper on an input
it rejects. -/
def validStubFalse (_ : String) : Bool := false

/-! ## Trace lemmas for the load-validator -/

theorem retrySeq_length (d : Nat) (u : String) :
    ∀ n a, (retrySeq d u a n).length = n := by
  intro n
  induction n with
  | zero => intro a; rfl
  | succ n ih => intro a; simp [retrySeq, ih (a + 1)]

theorem retrySeq_get (d : Nat) (u : String) :
    ∀ n a i, i < n →
      (retrySeq d u a n)[i]? = some (d, ⟨u, a + i + 1⟩) := by
  intro n
  induction n with
  | zero => intro a i hi; omega
  | succ n ih =>
    intro a i hi
    match i with
    | 0 => simp [retrySeq]
    | (j + 1) =>
      have h1 : (retrySeq d u a (n + 1))[j + 1]? = (retrySeq d u (a + 1) n)[j]? := by
        simp [retrySeq]
      rw [h1, ih (a + 1) j (by omega)]
      have h2 : a + 1 + j + 1 = a + (j + 1) + 1 := by omega
      rw [h2]

theorem errTrace_length (n : Nat) : (errTrace n).length = 2 * n + 1 := by
  induction n with
  | zero => rfl
  | succ n ih => simp only [errTrace, List.length_cons, ih]; omega

theorem tmoTrace_length (n : Nat) : (tmoTrace n).length = 2 * n + 1 := by
  induction n with
  | zero => rfl
  | succ n ih => simp only [tmoTrace, List.length_cons, ih]; omega

theorem hkMount_eq_probing (cfg : BrokenCfg) (u : String) (hu : u ≠ "") :
    hkMount cfg u = probingAt cfg u 0 0 [] [u] := by
  simp [hkMount, attemptLoad, cleanup, hookInit, probingAt, hu]

/-- One failure-plus-retry round via `onerror`, from a probing state. -/
theorem err_round (cfg : BrokenCfg) (u : String) (hu : u ≠ "")
    (a r : Nat) (ha : a < cfg.retryCount) (lg : List (Nat × Probe))
    (ps : List String) :
    hkStep cfg (hkStep cfg (probingAt cfg u a r lg ps) .err) (.retryFire 0) =
      probingAt cfg u (a + 1) (a + 1)
        (lg ++ [(cfg.retryDelay, ⟨u, a + 1⟩)]) (ps ++ [u]) := by
  simp [hkStep, probingAt, scheduleRetry, attemptLoad, cleanup, ha, hu]

/-- One failure-plus-retry round via the timeout timer. -/
theorem tmo_round (cfg : BrokenCfg) (u : String) (hu : u ≠ "")
    (a r : Nat) (ha : a < cfg.retryCount) (lg : List (Nat × Probe))
    (ps : List String) :
    hkStep cfg (hkStep cfg (probingAt cfg u a r lg ps) .tmo) (.retryFire 0) =
      probingAt cfg u (a + 1) (a + 1)
        (lg ++ [(cfg.retryDelay, ⟨u, a + 1⟩)]) (ps ++ [u]) := by
  simp [hkStep, probingAt, scheduleRetry, attemptLoad, cleanup, ha, hu]

/-- Final state of an always-`onerror` run: terminal `Invalid`, retries
reset to `0` (useImageBroken.tsx:91-94), probe still attached. -/
theorem errTrace_final (cfg : BrokenCfg) (u : String) (hu : u ≠ "") :
    ∀ n a r lg ps, a + n = cfg.retryCount →
    (errTrace n).foldl (hkStep cfg) (probingAt cfg u a r lg ps) =
      { isHaveImg := some false, retries := 0,
        current := some ⟨u, cfg.retryCount⟩, timeoutT := none,
        retryTs := [], retryLog := lg ++ retrySeq cfg.retryDelay u a n,
        probesStarted := ps ++ List.replicate n u, urlProp := u } := by
  intro n
  induction n with
  | zero =>
    intro a r lg ps ha
    have ha0 : ¬ a < cfg.retryCount := by omega
    subst ha
    simp [errTrace, hkStep, probingAt, retrySeq, ha0]
  | succ n ih =>
    intro a r lg ps ha
    have ha1 : a < cfg.retryCount := by omega
    show ((errTrace n).foldl (hkStep cfg)
      (hkStep cfg (hkStep cfg (probingAt cfg u a r lg ps) .err) (.retryFire 0)))
      = _
    rw [err_round cfg u hu a r ha1 lg ps,
      ih (a + 1) (a + 1) (lg ++ [(cfg.retryDelay, Probe.mk u (a + 1))])
        (ps ++ [u]) (by omega)]
    simp [retrySeq, List.replicate_succ]

/-- Final state of an always-timeout run: terminal `Invalid`, but the
retry counter is NOT reset (the timeout branch useImageBroken.tsx:67-70
runs `setImg(false); cleanup()` without `setRetries(0)`), and `cleanup`
detaches the probe. -/
theorem tmoTrace_final (cfg : BrokenCfg) (u : String) (hu : u ≠ "") :
    ∀ n a lg ps, a + n = cfg.retryCount →
    (tmoTrace n).foldl (hkStep cfg) (probingAt cfg u a a lg ps) =
      { isHaveImg := some false, retries := cfg.retryCount,
        current := none, timeoutT := none,
        retryTs := [], retryLog := lg ++ retrySeq cfg.retryDelay u a n,
        probesStarted := ps ++ List.replicate n u, urlProp := u } := by
  intro n
  induction n with
  | zero =>
    intro a lg ps ha
    have ha0 : ¬ a < cfg.retryCount := by omega
    subst ha
    simp [tmoTrace, hkStep, probingAt, cleanup, retrySeq, ha0]
  | succ n ih =>
    intro a lg ps ha
    have ha1 : a < cfg.retryCount := by omega
    show ((tmoTrace n).foldl (hkStep cfg)
      (hkStep cfg (hkStep cfg (probingAt cfg u a a lg ps) .tmo) (.retryFire 0)))
      = _
    rw [tmo_round cfg u hu a a ha1 lg ps,
      ih (a + 1) (lg ++ [(cfg.retryDelay, Probe.mk u (a + 1))])
        (ps ++ [u]) (by omega)]
    simp [retrySeq, List.replicate_succ]

/-- At every point strictly before the end of an always-timeout run the
result cell still holds `null` (loading). -/
theorem tmoTrace_prefix_loading (cfg : BrokenCfg) (u : String) (hu : u ≠ "") :
    ∀ n a lg ps, a + n = cfg.retryCount →
    ∀ k, k < (tmoTrace n).length →
    (((tmoTrace n).take k).foldl (hkStep cfg)
      (probingAt cfg u a a lg ps)).isHaveImg = none := by
  intro n
  induction n with
  | zero =>
    intro a lg ps ha k hk
    have : k = 0 := by
      have := tmoTrace_length 0
      omega
    subst this
    rfl
  | succ n ih =>
    intro a lg ps ha k hk
    have ha1 : a < cfg.retryCount := by omega
    match k with
    | 0 => rfl
    | 1 =>
      simp [tmoTrace, hkStep, probingAt, scheduleRetry, ha1]
    | (m + 2) =>
      show ((((tmoTrace n).take m).foldl (hkStep cfg)
        (hkStep cfg (hkStep cfg (probingAt cfg u a a lg ps) .tmo)
          (.retryFire 0)))).isHaveImg = none
      rw [tmo_round cfg u hu a a ha1 lg ps]
      apply ih (a + 1) _ _ (by omega)
      have h1 := tmoTrace_length (n + 1)
      have h2 := tmoTrace_length n
      omega

/-! ## Helper lemmas on rendering, visibility and the sequencer -/

/-- While the element has not been marked for loading, every render
returns the skeleton, whatever the validator says: either through
`shouldShowSkeleton` (when `showSkeleton` is on) or through the trailing
`return skeleton` fallback (both `shouldShowError` and `shouldShowImage`
require `shouldLoad`). -/
theorem render_skeleton_of_not_shouldLoad (showSk isLoadingProp : Bool)
    (isUrlValid : Option Bool) (retries : Nat) (rcOpt : Option Nat) :
    render showSk isLoadingProp false isUrlValid retries rcOpt = .skeleton := by
  cases showSk <;>
    simp [render, shouldShowSkeleton, shouldShowError, shouldShowImage]

/-- With the skeleton enabled, a pending validator result
(`isHaveImg === null`) always renders the skeleton. -/
theorem render_skeleton_of_pending (isLoadingProp shouldLoad : Bool)
    (retries : Nat) (rcOpt : Option Nat) :
    render true isLoadingProp shouldLoad none retries rcOpt = .skeleton := by
  simp [render, shouldShowSkeleton]

/-- Validator events do not touch the visibility state. -/
theorem compRun_vis_frozen (cfg : BrokenCfg) :
    ∀ (evs : List CEv) (s : CompState),
      evs.all (fun e => !e.isVis) = true →
      (evs.foldl (compStep cfg) s).vis = s.vis := by
  intro evs
  induction evs with
  | nil => intro s _; rfl
  | cons e evs ih =>
    intro s h
    simp only [List.all_cons, Bool.and_eq_true] at h
    match e with
    | .vis b => simp [CEv.isVis] at h
    | .hk e0 => exact ih (compStep cfg s (.hk e0)) h.2

/-- Once `loadSequence` has finished (its `finally` ran), no promise of
this run is still pending, so every further event is a no-op. -/
theorem progStep_done (high : String) (s : ProgState) (e : PEv)
    (h : s.phase = .done) : progStep high s e = s := by
  cases e <;> simp [progStep, h]

theorem foldl_progStep_done (high : String) :
    ∀ (evs : List PEv) (s : ProgState), s.phase = .done →
      evs.foldl (progStep high) s = s := by
  intro evs
  induction evs with
  | nil => intro s _; rfl
  | cons e evs ih =>
    intro s h
    show evs.foldl (progStep high) (progStep high s e) = s
    rw [progStep_done high s e h]
    exact ih s h

/-- State of the sequencer after both loads succeed. -/
theorem prog_bothOk (low high : String) (hl : low ≠ "") (hh : high ≠ "") :
    progRun high (some low) [.lowOk, .highOk] =
      { isLoaded := true, isLoading := false, shouldShowLowQuality := false,
        phase := .done, loadsStarted := [low, high] } := by
  simp [progRun, progMount, progStep, jsTruthy, hl, hh]

/-! ## Claims -/

/-- C1, counterexample.  A lazily loading instance whose element is never
observed intersecting (empty event trace) does display the skeleton — but
an image probe of the validator target HAS been started at mount
(`useImageBroken` is called unconditionally at ImageLazy.tsx:144 and its
effect assigns `img.src` immediately), contradicting "no image probe
(out-of-band fetch/decode of the source URL) is ever started". -/
theorem C1_probe_started_cex :
    (compRun ⟨10000, 2, 1000⟩ false "https://a/b.jpg" []).hook.probesStarted =
        ["https://a/b.jpg"]
    ∧ (compRun ⟨10000, 2, 1000⟩ false "https://a/b.jpg" []).hook.probesStarted ≠ []
    ∧ compRender true false none
        (compRun ⟨10000, 2, 1000⟩ false "https://a/b.jpg" []) = .skeleton := by
  decide

/-- C1, amended.  For every element instance with lazy loading whose
target is never observed intersecting, every render displays the
skeleton; however the out-of-band validation probe of the target URL is
started at mount regardless of visibility (only the rendered `<img>` is
deferred). -/
theorem C1_never_visible (cfg : BrokenCfg) (target : String)
    (showSk isLoadingProp : Bool) (rcOpt : Option Nat) (evs : List CEv)
    (ht : target ≠ "") (hv : evs.all (fun e => !e.isVis) = true) :
    compRender showSk isLoadingProp rcOpt (compRun cfg false target evs) =
        .skeleton
    ∧ (compMount cfg false target).hook.probesStarted = [target] := by
  constructor
  · have hfrozen : (compRun cfg false target evs).vis =
        (compMount cfg false target).vis :=
      compRun_vis_frozen cfg evs (compMount cfg false target) hv
    have hsl : (compRun cfg false target evs).vis.shouldLoad = false := by
      rw [hfrozen]; rfl
    simp only [compRender, hsl]
    exact render_skeleton_of_not_shouldLoad _ _ _ _ _
  · simp [compMount, hkMount, attemptLoad, cleanup, hookInit, ht]

/-- C1 witness: a concrete lazy instance receiving only validator events. -/
theorem C1_never_visible_witness :
    compRender true false none
      (compRun ⟨10000, 2, 1000⟩ false "https://a/b.jpg" [CEv.hk HkEv.load]) =
        .skeleton
    ∧ (compMount ⟨10000, 2, 1000⟩ false "https://a/b.jpg").hook.probesStarted =
        ["https://a/b.jpg"] :=
  C1_never_visible ⟨10000, 2, 1000⟩ "https://a/b.jpg" true false none
    [CEv.hk HkEv.load] (by decide) (by decide)

/-- C2 (code bug).  The retry-delay timer created at
useImageBroken.tsx:65/89 is an anonymous `setTimeout` whose handle is
never stored, so the `cleanup` run on a `url` change cannot clear it.
Concretely: URL "A" fails once (a retry of "A" is scheduled and survives
in `retryTs` across the URL change), the prop changes to "B", B's probe
succeeds (`isHaveImg = some true`) — and then the stale retry fires,
resetting the state to loading and re-probing "A" while the `url` prop is
"B".  The final state does not reflect B's success, contradicting the
claim that all pending timers of the old attempt are cleared before the
new cycle starts. -/
theorem C2_stale_retry_survives_url_change :
    (hkRun ⟨10000, 2, 1000⟩ "A" [.err, .setUrl "B"]).retryTs =
        [(1000, ⟨"A", 1⟩)]
    ∧ (hkRun ⟨10000, 2, 1000⟩ "A" [.err, .setUrl "B", .load]).isHaveImg =
        some true
    ∧ (hkRun ⟨10000, 2, 1000⟩ "A"
        [.err, .setUrl "B", .load, .retryFire 0]).isHaveImg = none
    ∧ (hkRun ⟨10000, 2, 1000⟩ "A"
        [.err, .setUrl "B", .load, .retryFire 0]).current = some ⟨"A", 1⟩
    ∧ (hkRun ⟨10000, 2, 1000⟩ "A"
        [.err, .setUrl "B", .load, .retryFire 0]).urlProp = "B"
    ∧ (hkRun ⟨10000, 2, 1000⟩ "A"
        [.err, .setUrl "B", .load, .retryFire 0]).probesStarted =
        ["A", "B", "A"] := by
  decide

/-- C8 (confirmed).  An empty `url` is an immediate `Invalid` with no
probe, no timer, no retry scheduled and `retries` untouched at `0`: both
through the effect branch (`else setImg(false)`,
useImageBroken.tsx:103-105) and through the guard at the top of
`attemptLoad` (useImageBroken.tsx:51-54). -/
theorem C8_empty_url_immediate_invalid (cfg : BrokenCfg) (s : HookState)
    (a : Nat) :
    hkMount cfg "" = { hookInit "" with isHaveImg := some false }
    ∧ (hkMount cfg "").isHaveImg = some false
    ∧ (hkMount cfg "").probesStarted = []
    ∧ (hkMount cfg "").retryTs = []
    ∧ (hkMount cfg "").retryLog = []
    ∧ (hkMount cfg "").timeoutT = none
    ∧ (hkMount cfg "").current = none
    ∧ (hkMount cfg "").retries = 0
    ∧ attemptLoad cfg s "" a = { s with isHaveImg := some false } := by
  simp [hkMount, attemptLoad, hookInit]

/-- C9, counterexample.  After the first satisfying intersection the
latch is set and the handler unobserves — but because
`handleIntersection`'s `useCallback` depends on `hasIntersected`
(ImageLazy.tsx:181), the state change re-runs the observer effect
(deps `[loading, handleIntersection]`, ImageLazy.tsx:205), which
constructs a NEW `IntersectionObserver` (generation 1) and observes the
element again: the detector does not stop observing the target.  Further
events are still no-ops for the state. -/
theorem C9_reobserve_cex :
    (visRun (mountVis false) [true]).hasIntersected = true
    ∧ (visRun (mountVis false) [true]).observerActive = true
    ∧ (visRun (mountVis false) [true]).observerGen = 1
    ∧ visRun (mountVis false) [true, true] = visRun (mountVis false) [true] := by
  decide

/-- C9, amended.  The visibility flag is monotonic — once
`hasIntersected` is true, any intersection event leaves the entire state
(flag, `shouldLoad`, observer) unchanged, over any event trace — but the
detector does not stop observing after the first satisfying
intersection: the effect re-run constructs observer generation 1, which
observes the element again. -/
theorem C9_visibility_latch (s : VisState) (b : Bool)
    (h : s.hasIntersected = true) :
    visStep s b = s
    ∧ (∀ evs : List Bool, visRun s evs = s)
    ∧ visRun (mountVis false) [true] =
        { shouldLoad := true, hasIntersected := true,
          observerActive := true, observerGen := 1 } := by
  have h1 : ∀ c : Bool, visStep s c = s := by
    intro c; simp [visStep, h]
  refine ⟨h1 b, ?_, by decide⟩
  intro evs
  induction evs with
  | nil => rfl
  | cons c evs ih =>
    show evs.foldl visStep (visStep s c) = s
    rw [h1 c]
    exact ih

/-- C9 witness: a latched state absorbs a further intersection event. -/
theorem C9_visibility_latch_witness :
    visStep ⟨true, true, true, 1⟩ true = ⟨true, true, true, 1⟩ :=
  (C9_visibility_latch ⟨true, true, true, 1⟩ true rfl).1

/-- C3, counterexample.  With `retryCount = 1` and every attempt failing
by TIMEOUT, the terminal state is `Invalid` but `retries` is `1`, not
`0`: the timeout-exhaustion branch (useImageBroken.tsx:67-70) runs
`setImg(false); cleanup()` without `setRetries(0)`, so the claim that
`retryCount` is reset to 0 on reaching the terminal `Invalid` state fails
for timeout-caused failures. -/
theorem C3_timeout_no_reset_cex :
    (hkRun ⟨10000, 1, 1000⟩ "u" (tmoTrace 1)).isHaveImg = some false
    ∧ (hkRun ⟨10000, 1, 1000⟩ "u" (tmoTrace 1)).retries = 1
    ∧ (hkRun ⟨10000, 1, 1000⟩ "u" (tmoTrace 1)).retries ≠ 0 := by
  decide

/-- C3, amended.  For every `retryCount = N`, an always-failing URL
yields exactly `N` retry attempts, each scheduled with the fixed
`retryDelay` and with the emitted `retries` equal to the attempt number
(1, 2, …, N — recorded in `retryLog`), then `N + 1` probes total and the
terminal `Invalid`; `retries` is reset to `0` on reaching `Invalid` when
the final failure is a decode error (`onerror`), but stays at `N` when
the final failure is a timeout. -/
theorem C3_retry_budget (cfg : BrokenCfg) (u : String) (hu : u ≠ "") :
    (hkRun cfg u (errTrace cfg.retryCount)).isHaveImg = some false
    ∧ (hkRun cfg u (errTrace cfg.retryCount)).retries = 0
    ∧ (hkRun cfg u (errTrace cfg.retryCount)).retryLog.length = cfg.retryCount
    ∧ (∀ i, i < cfg.retryCount →
        (hkRun cfg u (errTrace cfg.retryCount)).retryLog[i]? =
          some (cfg.retryDelay, ⟨u, i + 1⟩))
    ∧ (hkRun cfg u (errTrace cfg.retryCount)).probesStarted =
        List.replicate (cfg.retryCount + 1) u
    ∧ (hkRun cfg u (tmoTrace cfg.retryCount)).isHaveImg = some false
    ∧ (hkRun cfg u (tmoTrace cfg.retryCount)).retries = cfg.retryCount
    ∧ (hkRun cfg u (tmoTrace cfg.retryCount)).retryLog =
        (hkRun cfg u (errTrace cfg.retryCount)).retryLog := by
  have he : hkRun cfg u (errTrace cfg.retryCount) =
      { isHaveImg := some false, retries := 0,
        current := some ⟨u, cfg.retryCount⟩, timeoutT := none, retryTs := [],
        retryLog := [] ++ retrySeq cfg.retryDelay u 0 cfg.retryCount,
        probesStarted := [u] ++ List.replicate cfg.retryCount u,
        urlProp := u } := by
    rw [hkRun, hkMount_eq_probing cfg u hu]
    exact errTrace_final cfg u hu cfg.retryCount 0 0 [] [u] (by omega)
  have ht : hkRun cfg u (tmoTrace cfg.retryCount) =
      { isHaveImg := some false, retries := cfg.retryCount,
        current := none, timeoutT := none, retryTs := [],
        retryLog := [] ++ retrySeq cfg.retryDelay u 0 cfg.retryCount,
        probesStarted := [u] ++ List.replicate cfg.retryCount u,
        urlProp := u } := by
    rw [hkRun, hkMount_eq_probing cfg u hu]
    exact tmoTrace_final cfg u hu cfg.retryCount 0 [] [u] (by omega)
  rw [he, ht]
  refine ⟨rfl, rfl, ?_, ?_, ?_, rfl, rfl, rfl⟩
  · simp [retrySeq_length]
  · intro i hi
    simpa using retrySeq_get cfg.retryDelay u cfg.retryCount 0 i hi
  · simp [List.replicate_succ]

/-- C3 witness: the default configuration (`retryCount = 2`) on an
always-failing URL. -/
theorem C3_retry_budget_witness :
    (hkRun ⟨10000, 2, 1000⟩ "u" (errTrace 2)).retries = 0
    ∧ (hkRun ⟨10000, 2, 1000⟩ "u" (tmoTrace 2)).retries = 2 :=
  ⟨(C3_retry_budget ⟨10000, 2, 1000⟩ "u" (by decide)).2.1,
   (C3_retry_budget ⟨10000, 2, 1000⟩ "u" (by decide)).2.2.2.2.2.2.1⟩

/-- C4, counterexample.  A visible element whose retry budget is
exhausted by repeated DECODE errors ends `Invalid`, yet the component
shows the image (fallback), not the error placeholder: the terminal
`onerror` branch resets `retries` to `0` (useImageBroken.tsx:93), so
`shouldShowError`'s test `retries >= (retryOptions.retryCount || 2)`
(ImageLazy.tsx:209) can never hold on that path. -/
theorem C4_decode_exhaustion_shows_image_cex :
    (hkRun ⟨10000, 2, 1000⟩ "u" (errTrace 2)).isHaveImg = some false
    ∧ (hkRun ⟨10000, 2, 1000⟩ "u" (errTrace 2)).retries = 0
    ∧ render true false true (hkRun ⟨10000, 2, 1000⟩ "u" (errTrace 2)).isHaveImg
        (hkRun ⟨10000, 2, 1000⟩ "u" (errTrace 2)).retries (some 2) = .image
    ∧ render true false true (hkRun ⟨10000, 2, 1000⟩ "u" (errTrace 2)).isHaveImg
        (hkRun ⟨10000, 2, 1000⟩ "u" (errTrace 2)).retries (some 2) ≠ .error := by
  decide

/-- C4, amended.  For a visible element (`shouldLoad = true`, skeleton
enabled, external `isLoading` off) with `retryCount = N ≥ 1`: when the
budget is exhausted by timeouts the error placeholder is displayed; at
every render strictly before the terminal failure the skeleton is shown,
indistinguishable from a first attempt; but when the budget is exhausted
by decode errors the image (fallback) is displayed instead of the error
placeholder. -/
theorem C4_error_after_exhaustion (cfg : BrokenCfg) (u : String)
    (hu : u ≠ "") (hr : 1 ≤ cfg.retryCount) :
    render true false true (hkRun cfg u (tmoTrace cfg.retryCount)).isHaveImg
        (hkRun cfg u (tmoTrace cfg.retryCount)).retries
        (some cfg.retryCount) = .error
    ∧ (∀ k, k < (tmoTrace cfg.retryCount).length →
        render true false true
          (((tmoTrace cfg.retryCount).take k).foldl (hkStep cfg)
            (hkMount cfg u)).isHaveImg
          (((tmoTrace cfg.retryCount).take k).foldl (hkStep cfg)
            (hkMount cfg u)).retries
          (some cfg.retryCount) = .skeleton)
    ∧ render true false true (hkRun cfg u (errTrace cfg.retryCount)).isHaveImg
        (hkRun cfg u (errTrace cfg.retryCount)).retries
        (some cfg.retryCount) = .image := by
  have hR : cfg.retryCount ≠ 0 := by omega
  have ht : hkRun cfg u (tmoTrace cfg.retryCount) =
      { isHaveImg := some false, retries := cfg.retryCount,
        current := none, timeoutT := none, retryTs := [],
        retryLog := [] ++ retrySeq cfg.retryDelay u 0 cfg.retryCount,
        probesStarted := [u] ++ List.replicate cfg.retryCount u,
        urlProp := u } := by
    rw [hkRun, hkMount_eq_probing cfg u hu]
    exact tmoTrace_final cfg u hu cfg.retryCount 0 [] [u] (by omega)
  have he : hkRun cfg u (errTrace cfg.retryCount) =
      { isHaveImg := some false, retries := 0,
        current := some ⟨u, cfg.retryCount⟩, timeoutT := none, retryTs := [],
        retryLog := [] ++ retrySeq cfg.retryDelay u 0 cfg.retryCount,
        probesStarted := [u] ++ List.replicate cfg.retryCount u,
        urlProp := u } := by
    rw [hkRun, hkMount_eq_probing cfg u hu]
    exact errTrace_final cfg u hu cfg.retryCount 0 0 [] [u] (by omega)
  refine ⟨?_, ?_, ?_⟩
  · rw [ht]
    simp [render, shouldShowSkeleton, shouldShowError, jsOrTwo, hR]
  · intro k hk
    have hnone :
        (((tmoTrace cfg.retryCount).take k).foldl (hkStep cfg)
          (hkMount cfg u)).isHaveImg = none := by
      rw [hkMount_eq_probing cfg u hu]
      exact tmoTrace_prefix_loading cfg u hu cfg.retryCount 0 [] [u]
        (by omega) k hk
    rw [hnone]
    exact render_skeleton_of_pending _ _ _ _
  · rw [he]
    have hj : ¬ (jsOrTwo (some cfg.retryCount) ≤ 0) := by
      simp [jsOrTwo, hR]
    simp [render, shouldShowSkeleton, shouldShowError, shouldShowImage, hj]

/-- C4 witness: the default configuration on an always-timing-out URL and
on an always-erroring URL. -/
theorem C4_error_after_exhaustion_witness :
    render true false true (hkRun ⟨10000, 2, 1000⟩ "u" (tmoTrace 2)).isHaveImg
        (hkRun ⟨10000, 2, 1000⟩ "u" (tmoTrace 2)).retries (some 2) = .error
    ∧ render true false true
        (hkRun ⟨10000, 2, 1000⟩ "u" (errTrace 2)).isHaveImg
        (hkRun ⟨10000, 2, 1000⟩ "u" (errTrace 2)).retries (some 2) = .image :=
  ⟨(C4_error_after_exhaustion ⟨10000, 2, 1000⟩ "u" (by decide) (by decide)).1,
   (C4_error_after_exhaustion ⟨10000, 2, 1000⟩ "u" (by decide) (by decide)).2.2⟩

/-- C5, counterexample.  With a low-quality URL present, a failure of the
low-quality load is NOT ignored: the single `try` of `loadSequence`
(useProgressiveImage.tsx:57-72) wraps BOTH awaits, so the rejection jumps
to `catch`/`finally` and the high-quality URL is never loaded — the
sequence ends (`phase = done`) with only the low-quality load started,
contradicting "ignores any failure of that load (best-effort), then
proceeds to load the high-quality URL". -/
theorem C5_low_failure_aborts_cex :
    (progRun "h" (some "l") [.lowFail]).loadsStarted = ["l"]
    ∧ (progRun "h" (some "l") [.lowFail]).phase = SeqPhase.done
    ∧ (progRun "h" (some "l") [.lowFail]).isLoaded = false := by
  decide

/-- C5, amended.  In progressive mode with a low-quality URL present, the
sequencer loads the low-quality URL first; if that load FAILS the whole
sequence aborts (the high-quality URL is never loaded) and the state
stays not-ready with the low-quality URL exposed; if it succeeds the
high-quality URL is loaded next; a high-quality error surfaces only as a
not-ready state (low-quality stays exposed, `isLoading` cleared) and
never escapes — every event is handled by a total step function, and a
finished sequence absorbs all further events. -/
theorem C5_progressive_error_handling (low high : String)
    (hl : low ≠ "") (hh : high ≠ "") :
    (progRun high (some low) [.lowFail]).loadsStarted = [low]
    ∧ (progRun high (some low) [.lowFail]).phase = .done
    ∧ (progRun high (some low) [.lowFail]).isLoaded = false
    ∧ progSrc high (some low) (progRun high (some low) [.lowFail]) = low
    ∧ (∀ (s : ProgState) (e : PEv), s.phase = .done → progStep high s e = s)
    ∧ (progRun high (some low) [.lowOk]).loadsStarted = [low, high]
    ∧ (progRun high (some low) [.lowOk, .highFail]).isLoaded = false
    ∧ progSrc high (some low)
        (progRun high (some low) [.lowOk, .highFail]) = low
    ∧ (progRun high (some low) [.lowOk, .highFail]).shouldShowLowQuality = true
    ∧ (progRun high (some low) [.lowOk, .highFail]).isLoading = false := by
  refine ⟨?_, ?_, ?_, ?_, progStep_done high, ?_, ?_, ?_, ?_, ?_⟩ <;>
    simp [progRun, progMount, progStep, progSrc, jsTruthy, hl, hh]

/-- C5 witness: concrete URLs. -/
theorem C5_progressive_error_handling_witness :
    (progRun "h" (some "l") [.lowFail]).loadsStarted = ["l"]
    ∧ progSrc "h" (some "l") (progRun "h" (some "l") [.lowOk, .highFail]) =
        "l" :=
  ⟨(C5_progressive_error_handling "l" "h" (by decide) (by decide)).1,
   (C5_progressive_error_handling "l" "h"
      (by decide) (by decide)).2.2.2.2.2.2.2.1⟩

/-- C6 (confirmed).  In progressive mode with both URLs succeeding, the
exposed `src` equals the low-quality URL and `shouldShowLowQuality` is
true at every render until the high-quality load completes (mount and
after the low-quality load resolves), and from the completion on —
whatever further events arrive — `src` equals the high-quality URL and
`shouldShowLowQuality` is false, permanently for the element instance:
a single transition. -/
theorem C6_progressive_single_transition (low high : String)
    (hl : low ≠ "") (hh : high ≠ "") :
    (progSrc high (some low) (progMount high (some low)) = low
      ∧ (progMount high (some low)).shouldShowLowQuality = true)
    ∧ (progSrc high (some low) (progRun high (some low) [.lowOk]) = low
      ∧ (progRun high (some low) [.lowOk]).shouldShowLowQuality = true)
    ∧ (∀ evs : List PEv,
        progSrc high (some low)
          (progRun high (some low) ([.lowOk, .highOk] ++ evs)) = high
        ∧ (progRun high (some low)
            ([.lowOk, .highOk] ++ evs)).shouldShowLowQuality = false) := by
  refine ⟨?_, ?_, ?_⟩
  · constructor <;> simp [progSrc, progMount, jsTruthy, hl, hh]
  · constructor <;> simp [progRun, progMount, progStep, progSrc, jsTruthy, hl, hh]
  · intro evs
    have habs : progRun high (some low) ([.lowOk, .highOk] ++ evs) =
        { isLoaded := true, isLoading := false,
          shouldShowLowQuality := false, phase := .done,
          loadsStarted := [low, high] } := by
      show (([PEv.lowOk, PEv.highOk] ++ evs).foldl (progStep high)
        (progMount high (some low))) = _
      rw [List.foldl_append]
      have h2 : ([PEv.lowOk, PEv.highOk].foldl (progStep high)
          (progMount high (some low))) =
          { isLoaded := true, isLoading := false,
            shouldShowLowQuality := false, phase := .done,
            loadsStarted := [low, high] } :=
        prog_bothOk low high hl hh
      rw [h2]
      exact foldl_progStep_done high evs _ rfl
    rw [habs]
    constructor
    · simp [progSrc]
    · rfl

/-- C6 witness: concrete URLs, with a stray extra event after
completion. -/
theorem C6_progressive_single_transition_witness :
    progSrc "h" (some "l") (progMount "h" (some "l")) = "l"
    ∧ progSrc "h" (some "l")
        (progRun "h" (some "l")
          ([PEv.lowOk, PEv.highOk] ++ [PEv.highOk])) = "h" :=
  ⟨(C6_progressive_single_transition "l" "h" (by decide) (by decide)).1.1,
   ((C6_progressive_single_transition "l" "h"
      (by decide) (by decide)).2.2 [.highOk]).1⟩

/-- C7, counterexample.  With `showSkeleton = false`, a visible element
whose validation is still `Pending` renders the IMAGE
(`shouldShowSkeleton` is short-circuited to false at ImageLazy.tsx:208
and `shouldShowImage = shouldLoad && !shouldShowError` holds), where the
claim's priority requires the skeleton whenever the load result is
`Pending`. -/
theorem C7_showSkeleton_off_cex :
    render false false true none 0 none = .image
    ∧ render false false true none 0 none ≠ .skeleton := by
  decide

/-- C7, amended.  With `showSkeleton` enabled (its default), every render
follows the claimed priority: skeleton whenever the element is not yet
visible, the result is `Pending`, or the external `isLoading` flag is set
— regardless of any cached validation result; otherwise error when the
result is `Invalid` and `retries` has reached the effective maximum
(`retryOptions.retryCount || 2`: the configured value, with `0` or absent
replaced by `2`); otherwise the image. -/
theorem C7_selection_priority (isLoadingProp shouldLoad : Bool)
    (isUrlValid : Option Bool) (retries : Nat) (rcOpt : Option Nat) :
    render true isLoadingProp shouldLoad isUrlValid retries rcOpt =
      if isLoadingProp || isUrlValid.isNone || !shouldLoad then .skeleton
      else if (isUrlValid == some false) && decide (jsOrTwo rcOpt ≤ retries)
        then .error
      else .image := by
  cases isLoadingProp <;> cases shouldLoad <;>
    rcases isUrlValid with _ | b
  all_goals try cases b
  all_goals try cases h : decide (jsOrTwo rcOpt ≤ retries)
  all_goals
    simp_all [render, shouldShowSkeleton, shouldShowError, shouldShowImage]

/-- C10, counterexample.  When the main URL fails the validity check, the
substituted validator target is the RAW `imgUrlDefault`
(`optimizedUrl` returns it unchanged, ImageLazy.tsx:135), which differs
from the optimized fallback URL
(`optimizeImageUrl(ensureHttps(imgUrlDefault))`, ImageLazy.tsx:139-141)
whenever the optimizer rewrites the URL — contradicting "the validator is
run against the (optimized) fallback URL". -/
theorem C10_raw_fallback_cex :
    optimizedUrl validStubFalse optStub id "x" "d" = "d"
    ∧ optimizedFallbackUrl optStub id "d" = "d?w=100"
    ∧ optimizedUrl validStubFalse optStub id "x" "d" ≠
        optimizedFallbackUrl optStub id "d" := by
  decide

/-- C10, amended.  For every main-image URL that is empty or fails the
URL-format validity check, the component substitutes the RAW fallback URL
(`imgUrlDefault`, not its optimized form) before validation and display:
the validator (`useImageBroken(optimizedUrl, ...)`, ImageLazy.tsx:144)
probes `imgUrlDefault` itself, and when that validates, `finalImageSrc`
displays `imgUrlDefault` itself; the optimized fallback is used only when
validation does not succeed. -/
theorem C10_fallback_substitution (isValidImageUrl : String → Bool)
    (optimizeImageUrl ensureHttps : String → String)
    (imgUrl imgUrlDefault : String) (cfg : BrokenCfg)
    (h : imgUrl = "" ∨ isValidImageUrl imgUrl = false) :
    optimizedUrl isValidImageUrl optimizeImageUrl ensureHttps
        imgUrl imgUrlDefault = imgUrlDefault
    ∧ (hkMount cfg (optimizedUrl isValidImageUrl optimizeImageUrl ensureHttps
        imgUrl imgUrlDefault)).probesStarted =
        (if imgUrlDefault = "" then [] else [imgUrlDefault])
    ∧ finalImageSrc false "" (some true)
        (optimizedUrl isValidImageUrl optimizeImageUrl ensureHttps
          imgUrl imgUrlDefault)
        (optimizedFallbackUrl optimizeImageUrl ensureHttps imgUrlDefault) =
        imgUrlDefault := by
  have h1 : optimizedUrl isValidImageUrl optimizeImageUrl ensureHttps
      imgUrl imgUrlDefault = imgUrlDefault := by
    simp [optimizedUrl, h]
  refine ⟨h1, ?_, ?_⟩
  · rw [h1]
    by_cases hd : imgUrlDefault = "" <;>
      simp [hkMount, attemptLoad, cleanup, hookInit, hd]
  · rw [h1]
    simp [finalImageSrc]

/-- C10 witness: a rejected main URL with a concrete optimizer. -/
theorem C10_fallback_substitution_witness :
    optimizedUrl validStubFalse optStub id "x" "d" = "d"
    ∧ finalImageSrc false "" (some true)
        (optimizedUrl validStubFalse optStub id "x" "d")
        (optimizedFallbackUrl optStub id "d") = "d" :=
  ⟨(C10_fallback_substitution validStubFalse optStub id "x" "d"
      ⟨10000, 2, 1000⟩ (Or.inr rfl)).1,
   (C10_fallback_substitution validStubFalse optStub id "x" "d"
      ⟨10000, 2, 1000⟩ (Or.inr rfl)).2.2⟩

end ImageLz
